import Mathlib

/-!
# Tempo search streams (`pkg/tsdb/tempo/streams.go`)

A shallow embedding of the `Streams` registry: `add`, `NewSearchStreams`,
`runStream`, `sendResponse`, `createResponseDataFrame` and
`getRequestFromPath`, followed by the properties proved about them.

Modelling conventions.

* Go values of pointer or interface type are `Option`s: `none` is `nil`.
  The `error` a function returns is `Option GoError`.
* `*TraceQLSearch` values are addresses (`Ptr`) into a heap shared by the
  registry, the producer and the delivery calls; an address without a cell
  is the nil pointer.
* A channel (`Chan`) is the list of the values waiting in it, oldest first,
  and whether it has been closed. A receive takes the oldest waiting value;
  on a closed channel with none waiting it proceeds at once with the zero
  value (nil); on an open channel with none waiting it is not ready. A nil
  channel behaves as an open channel nobody sends on. A `select` none of
  whose cases is ready yields the outcome `blocked`; when both cases are
  ready Go picks one at random, which the model takes as the argument
  `pick`.
* A nil dereference yields the outcome `panicked`.
* `s.mutex` and `s.logger` carry no state the functions read back; calls are
  taken in the order the mutex admits them. The `requests` map is the one
  `NewSearchStreams` makes (never the nil map).
* `json.Marshal` on the trace list and on the metrics of a response, whose
  types are declared outside this file, is taken as a parameter.
-/

namespace Tempo

/-- A non-nil Go `error`, identified by its message. -/
structure GoError where
  msg : String
deriving DecidableEq, Repr

/-- The bytes of a `json.RawMessage`. -/
abbrev RawMessage := String

/-- A `data.Field` holding `json.RawMessage` rows: its name and its rows. -/
structure Field where
  Name : String
  values : List RawMessage
deriving DecidableEq, Repr

/-- A `data.Frame`: its name and its fields (columns), in order. -/
structure Frame where
  Name : String
  Fields : List Field
deriving DecidableEq, Repr

/-- The `data.FrameInclude` directive of `SendFrame`. -/
inductive FrameInclude where
  | IncludeAll
  | IncludeDataOnly
  | IncludeSchemaOnly
deriving DecidableEq, Repr

/-- A `backend.StreamSender`, an external collaborator: `frames` records every
frame handed to `SendFrame` with its directive, oldest first; `results` is what
the coming `SendFrame` calls return, in order (nil once exhausted). -/
structure StreamSender where
  frames : List (Frame × FrameInclude)
  results : List (Option GoError)
deriving DecidableEq, Repr

/-- One `sender.SendFrame(frame, incl)` call. -/
def StreamSender.SendFrame (sender : StreamSender) (frame : Frame) (incl : FrameInclude) :
    StreamSender × Option GoError :=
  match sender.results with
  | [] => (⟨sender.frames ++ [(frame, incl)], []⟩, none)
  | r :: rest => (⟨sender.frames ++ [(frame, incl)], rest⟩, r)

/-- A `tempopb.SearchResponse`: the two fields `sendResponse` reads. `T` is the
type of the trace list, `M` the type of the metrics. -/
structure SearchResponse (T M : Type) where
  Traces : T
  Metrics : M
deriving DecidableEq, Repr

/-- The two `json.Marshal` calls of `sendResponse`, as functions of the value
marshalled: either the JSON bytes or the error. -/
structure JSON (T M : Type) where
  MarshalTraces : T → Except GoError RawMessage
  MarshalMetrics : M → Except GoError RawMessage

/-- Modelled from the spec: the `State` enumeration of a search request, whose
declaration is outside this file ("enumeration {Pending, Running, Done}"). -/
inductive SearchState where
  | Pending
  | Running
  | Done
deriving DecidableEq, Repr

/-- A Go channel of nil-able values: the values waiting in it, oldest first,
and whether `close` has been called on it. -/
structure Chan (β : Type) where
  pending : List (Option β)
  closed : Bool
deriving DecidableEq, Repr

/-- A receive `<-c`: the value received and the channel after it, or `none`
when the receive is not ready. A waiting value is taken first; a closed channel
with none waiting yields the zero value nil and stays as it is. -/
def Chan.receive {β : Type} (c : Chan β) : Option (Option β × Chan β) :=
  match c.pending with
  | v :: rest => some (v, ⟨rest, c.closed⟩)
  | [] => if c.closed then some (none, c) else none

/-- A send `c <- v` by the producer on an open channel; a send on a closed
channel panics in the producer and leaves the channel as it is. -/
def Chan.send {β : Type} (c : Chan β) (v : Option β) : Chan β :=
  if c.closed then c else ⟨c.pending ++ [v], false⟩

/-- Modelled from the spec: the `TraceQLSearch` struct, whose declaration is
outside this file; the four fields `runStream` reads. `Updates` and `Errors`
are the two channels. -/
structure TraceQLSearch (T M : Type) where
  State : SearchState
  Result : Option (SearchResponse T M)
  Updates : Chan (SearchResponse T M)
  Errors : Chan GoError
deriving DecidableEq, Repr

/-- The address of a `TraceQLSearch`. -/
abbrev Ptr := Nat

/-- The `TraceQLSearch` cells; `none` at the nil pointer. -/
abbrev Heap (T M : Type) := Ptr → Option (TraceQLSearch T M)

/-- The `Streams` struct: the `requests` map. -/
structure Streams where
  requests : String → Option Ptr

/-- What `fmt.Errorf(format + "%s", arg)` returns. -/
def Errorf (format arg : String) : GoError := ⟨format ++ arg⟩

/-- `func (s *Streams) add(key string, request *TraceQLSearch) error`: the
registry after the call and the error returned. -/
def add (s : Streams) (key : String) (request : Ptr) : Streams × Option GoError :=
  if key = "" then
    (s, some (Errorf "invalid key " key))
  else
    (⟨fun k => if k = key then some request else s.requests k⟩, none)

/-- `func NewSearchStreams() *Streams`. -/
def NewSearchStreams : Streams := ⟨fun _ => none⟩

/-- `func (s *Streams) getRequestFromPath(path string) (*TraceQLSearch, error)`. -/
def getRequestFromPath (s : Streams) (path : String) : Except GoError Ptr :=
  match s.requests path with
  | none => .error (Errorf "unable to find request for key " path)
  | some req => .ok req

/-- `func (s *Streams) createResponseDataFrame() *data.Frame`. -/
def createResponseDataFrame : Frame :=
  let frame : Frame := ⟨"response", []⟩
  let frame : Frame := ⟨frame.Name, frame.Fields ++ [⟨"traces", []⟩]⟩
  let frame : Frame := ⟨frame.Name, frame.Fields ++ [⟨"metrics", []⟩]⟩
  frame

/-- The fields after `fields[i].Append(v)`; `none` when `i` is out of range. -/
def appendAt : List Field → Nat → RawMessage → Option (List Field)
  | [], _, _ => none
  | f :: fs, 0, v => some (⟨f.Name, f.values ++ [v]⟩ :: fs)
  | f :: fs, i + 1, v => (appendAt fs i v).map (fun fs1 => f :: fs1)

/-- The frame after `frame.Fields[i].Append(v)`. -/
def Frame.Append (frame : Frame) (i : Nat) (v : RawMessage) : Option Frame :=
  (appendAt frame.Fields i v).map (fun fs => ⟨frame.Name, fs⟩)

/-- How a call ends. -/
inductive Outcome where
  | returned (err : Option GoError)
  | blocked
  | panicked
deriving DecidableEq, Repr

/-- `func (s *Streams) sendResponse(sr *tempopb.SearchResponse, sender
*backend.StreamSender) error`: the sender after the call and how it ended. -/
def sendResponse {T M : Type} (json : JSON T M) (sr : Option (SearchResponse T M))
    (sender : StreamSender) : StreamSender × Outcome :=
  let frame := createResponseDataFrame
  match sr with
  | none => (sender, .panicked)
  | some r =>
    match json.MarshalTraces r.Traces with
    | .error err => (sender, .returned (some err))
    | .ok tracesAsJson =>
      match frame.Append 0 tracesAsJson with
      | none => (sender, .panicked)
      | some frame =>
        match json.MarshalMetrics r.Metrics with
        | .error err => (sender, .returned (some err))
        | .ok metricsAsJson =>
          match frame.Append 1 metricsAsJson with
          | none => (sender, .panicked)
          | some frame =>
            let sent := sender.SendFrame frame FrameInclude.IncludeAll
            (sent.1, .returned sent.2)

/-- The case of the `select` that Go picks when both are ready. -/
inductive SelectCase where
  | updates
  | errors
deriving DecidableEq, Repr

/-- What the `select` of `runStream` receives. -/
inductive Received (T M : Type) where
  | response (response : Option (SearchResponse T M)) (rest : Chan (SearchResponse T M))
  | err (err : Option GoError) (rest : Chan GoError)
  | nothing

/-- The `select` over `<-sr.Updates` and `<-sr.Errors`: the case taken, with
the value received and the channel after the receive. -/
def selectReceive {T M : Type} (pick : SelectCase) (updates : Chan (SearchResponse T M))
    (errors : Chan GoError) : Received T M :=
  match updates.receive, errors.receive with
  | none, none => .nothing
  | some (u, us), none => .response u us
  | none, some (e, es) => .err e es
  | some (u, us), some (e, es) =>
    match pick with
    | .updates => .response u us
    | .errors => .err e es

/-- The state a `runStream` call leaves and how it ended. -/
structure RunResult (T M : Type) where
  heap : Heap T M
  sender : StreamSender
  outcome : Outcome

/-- The `select` statement of `runStream` and the `return nil` after it. -/
def runSelect {T M : Type} (json : JSON T M) (heap : Heap T M) (p : Ptr) (sr : TraceQLSearch T M)
    (pick : SelectCase) (sender : StreamSender) : RunResult T M :=
  match selectReceive pick sr.Updates sr.Errors with
  | .nothing => ⟨heap, sender, .blocked⟩
  | .response response rest =>
    let sent := sendResponse json response sender
    ⟨Function.update heap p (some { sr with Updates := rest }), sent.1, sent.2⟩
  | .err err rest =>
    ⟨Function.update heap p (some { sr with Errors := rest }), sender, .returned err⟩

/-- The `if sr.State == Done` statement of `runStream`: the sender after it and
how it ended, `returned none` when control goes on to the `select`. -/
def catchUp {T M : Type} (json : JSON T M) (sr : TraceQLSearch T M) (sender : StreamSender) :
    StreamSender × Outcome :=
  if sr.State = SearchState.Done then
    sendResponse json sr.Result sender
  else
    (sender, .returned none)

/-- `func (s *Streams) runStream(ctx, req, sender, tempoDatasource) error`,
with `path` for `req.Path`. -/
def runStream {T M : Type} (json : JSON T M) (s : Streams) (heap : Heap T M) (pick : SelectCase)
    (path : String) (sender : StreamSender) : RunResult T M :=
  match s.requests path with
  | none => ⟨heap, sender, .returned none⟩
  | some p =>
    match heap p with
    | none => ⟨heap, sender, .panicked⟩
    | some sr =>
      match catchUp json sr sender with
      | (sender1, .returned none) => runSelect json heap p sr pick sender1
      | (sender1, o) => ⟨heap, sender1, o⟩

/-- The registry after the registrations `regs` (key, request), applied from the
head on, each by one `add` call. -/
def addAll (s : Streams) (regs : List (String × Ptr)) : Streams :=
  regs.foldl (fun acc kr => (add acc kr.1 kr.2).1) s

/-- The frame `sendResponse` builds from the two JSON encodings. -/
def responseFrame (tracesAsJson metricsAsJson : RawMessage) : Frame :=
  ⟨"response", [⟨"traces", [tracesAsJson]⟩, ⟨"metrics", [metricsAsJson]⟩]⟩

/-- The number of frames handed to the sender between two of its states. -/
def framesHanded (before after : StreamSender) : Nat :=
  after.frames.length - before.frames.length

/-- The number of values waiting on the `Errors` channel of the request at `p`. -/
def pendingErrors {T M : Type} (heap : Heap T M) (p : Ptr) : Nat :=
  match heap p with
  | none => 0
  | some sr => sr.Errors.pending.length

/-- The number of values waiting on the `Updates` channel of the request at `p`. -/
def pendingUpdates {T M : Type} (heap : Heap T M) (p : Ptr) : Nat :=
  match heap p with
  | none => 0
  | some sr => sr.Updates.pending.length

/-- The number of values waiting on the two channels of the request at `p`. -/
def pendingValues {T M : Type} (heap : Heap T M) (p : Ptr) : Nat :=
  pendingUpdates heap p + pendingErrors heap p

/-- The number of events one `runStream` call forwards: the frames it hands to
the sender plus the producer errors it takes from `Errors` and returns. -/
def eventsForwarded {T M : Type} (json : JSON T M) (s : Streams) (heap : Heap T M)
    (pick : SelectCase) (path : String) (sender : StreamSender) : Nat :=
  let r := runStream json s heap pick path sender
  framesHanded sender r.sender +
    (match s.requests path with
     | none => 0
     | some p => pendingErrors heap p - pendingErrors r.heap p)

/-- The producer's `sr.Updates <- response` on the request at `p`. -/
def pushUpdate {T M : Type} (heap : Heap T M) (p : Ptr)
    (response : Option (SearchResponse T M)) : Heap T M :=
  match heap p with
  | none => heap
  | some sr => Function.update heap p (some { sr with Updates := sr.Updates.send response })

/-- The producer's `sr.Errors <- err` on the request at `p`. -/
def pushError {T M : Type} (heap : Heap T M) (p : Ptr) (err : Option GoError) : Heap T M :=
  match heap p with
  | none => heap
  | some sr => Function.update heap p (some { sr with Errors := sr.Errors.send err })

/-- A marshaller for the examples: the value `some j` encodes to `j`, the value
`none` is one `json.Marshal` rejects. -/
def exampleJSON : JSON (Option String) (Option String) :=
  ⟨fun t => match t with
    | some j => .ok j
    | none => .error ⟨"json: unsupported value"⟩,
   fun m => match m with
    | some j => .ok j
    | none => .error ⟨"json: unsupported value"⟩⟩

/-- A heap with one request, at address 1. -/
def exampleHeap (sr : TraceQLSearch (Option String) (Option String)) :
    Heap (Option String) (Option String) :=
  fun p => if p = 1 then some sr else none

/-- A registry with the one key `search/a`, bound to address 1. -/
def exampleStreams : Streams := (add NewSearchStreams "search/a" 1).1

/-- A sender that has been handed nothing and accepts every frame. -/
def exampleSender : StreamSender := ⟨[], []⟩

/-- The error of the first `json.Marshal` call of `sendResponse` on `r` that
fails (the trace list, then the metrics); `none` when both succeed. -/
def marshalError {T M : Type} (json : JSON T M) (r : SearchResponse T M) : Option GoError :=
  match json.MarshalTraces r.Traces with
  | .error err => some err
  | .ok _ =>
    match json.MarshalMetrics r.Metrics with
    | .error err => some err
    | .ok _ => none

/-- Whether `path` is the key of a request whose `State` is `Done`. -/
def resolvesToDone {T M : Type} (s : Streams) (heap : Heap T M) (path : String) : Bool :=
  match s.requests path with
  | none => false
  | some p =>
    match heap p with
    | none => false
    | some sr => decide (sr.State = SearchState.Done)

/-! ## Registration and lookup -/

theorem add_requests_of_ne (s : Streams) (k : String) (r : Ptr) (k1 : String) (h : k1 ≠ k) :
    (add s k r).1.requests k1 = s.requests k1 := by
  unfold add
  split
  · rfl
  · simp [h]

theorem add_requests_self (s : Streams) (k : String) (r : Ptr) (h : k ≠ "") :
    (add s k r).1.requests k = some r := by
  simp [add, h]

theorem addAll_requests_of_not_mem (regs : List (String × Ptr)) (s : Streams) (k : String)
    (h : k ∉ regs.map Prod.fst) : (addAll s regs).requests k = s.requests k := by
  induction regs generalizing s with
  | nil => rfl
  | cons kr rest ih =>
    simp only [List.map_cons, List.mem_cons, not_or] at h
    have step : addAll s (kr :: rest) = addAll (add s kr.1 kr.2).1 rest := rfl
    rw [step, ih _ h.2, add_requests_of_ne s kr.1 kr.2 k h.1]

theorem addAll_requests_of_mem (regs : List (String × Ptr)) (s : Streams)
    (hnodup : (regs.map Prod.fst).Nodup) (hne : ∀ kr ∈ regs, kr.1 ≠ "")
    (k : String) (r : Ptr) (hmem : (k, r) ∈ regs) : (addAll s regs).requests k = some r := by
  induction regs generalizing s with
  | nil => cases hmem
  | cons kr rest ih =>
    have step : addAll s (kr :: rest) = addAll (add s kr.1 kr.2).1 rest := rfl
    rw [List.map_cons, List.nodup_cons] at hnodup
    rw [step]
    rcases List.mem_cons.mp hmem with heq | hin
    · subst heq
      rw [addAll_requests_of_not_mem rest _ k hnodup.1]
      exact add_requests_self s k r (hne (k, r) (List.mem_cons_self _ _))
    · exact ih _ hnodup.2 (fun kr1 h1 => hne kr1 (List.mem_cons_of_mem _ h1)) hin

/-- C1: for every registry, non-empty key `k` and request `r`, `add` returns no
error and `getRequestFromPath` then returns `r` without error; after two `add`
calls on `k` the lookup returns the request of the second. -/
theorem add_then_getRequestFromPath (s : Streams) (k : String) (r r1 r2 : Ptr) (hk : k ≠ "") :
    (add s k r).2 = none ∧
    getRequestFromPath (add s k r).1 k = .ok r ∧
    (add (add s k r1).1 k r2).2 = none ∧
    getRequestFromPath (add (add s k r1).1 k r2).1 k = .ok r2 := by
  refine ⟨?_, ?_, ?_, ?_⟩
  · simp [add, hk]
  · simp [getRequestFromPath, add_requests_self s k r hk]
  · simp [add, hk]
  · simp [getRequestFromPath, add_requests_self _ k r2 hk]

theorem add_then_getRequestFromPath_witness :
    "search/a" ≠ "" ∧
    ((add exampleStreams "search/a" 7).2 = none ∧
     getRequestFromPath (add exampleStreams "search/a" 7).1 "search/a" = .ok 7 ∧
     (add (add exampleStreams "search/a" 8).1 "search/a" 9).2 = none ∧
     getRequestFromPath (add (add exampleStreams "search/a" 8).1 "search/a" 9).1 "search/a"
       = .ok 9) :=
  ⟨by decide, add_then_getRequestFromPath exampleStreams "search/a" 7 8 9 (by decide)⟩

/-- C2: for every registry and request, `add` with the empty key returns the
error `invalid key ` and the registry after the call is the registry before
it. -/
theorem add_empty_key (s : Streams) (r : Ptr) :
    (add s "" r).2 = some (Errorf "invalid key " "") ∧ (add s "" r).1 = s := by
  simp [add]

/-- C9: for registrations on pairwise distinct non-empty keys, applied one
`add` at a time in any order, every `add` succeeds, each key then looks up its
own request, every key outside the list looks up what it did before, and one
`add` on `k` leaves the lookup of every other key as it was. -/
theorem addAll_distinct_keys (s : Streams) (regs order : List (String × Ptr))
    (hperm : order.Perm regs) (hnodup : (regs.map Prod.fst).Nodup)
    (hne : ∀ kr ∈ regs, kr.1 ≠ "") :
    (∀ kr ∈ order, ∀ s1 : Streams, (add s1 kr.1 kr.2).2 = none) ∧
    (∀ kr ∈ regs, getRequestFromPath (addAll s order) kr.1 = .ok kr.2) ∧
    (∀ k1, k1 ∉ regs.map Prod.fst →
      getRequestFromPath (addAll s order) k1 = getRequestFromPath s k1) ∧
    (∀ (s1 : Streams) (k : String) (r : Ptr) (k1 : String), k1 ≠ k →
      getRequestFromPath (add s1 k r).1 k1 = getRequestFromPath s1 k1) := by
  have hnodup1 : (order.map Prod.fst).Nodup := (hperm.map Prod.fst).nodup_iff.mpr hnodup
  have hne1 : ∀ kr ∈ order, kr.1 ≠ "" := fun kr h => hne kr (hperm.mem_iff.mp h)
  refine ⟨?_, ?_, ?_, ?_⟩
  · intro kr h s1
    simp [add, hne1 kr h]
  · intro kr h
    have := addAll_requests_of_mem order s hnodup1 hne1 kr.1 kr.2 (hperm.mem_iff.mpr h)
    simp [getRequestFromPath, this]
  · intro k1 h
    have hk : k1 ∉ order.map Prod.fst := fun hin => h ((hperm.map Prod.fst).mem_iff.mp hin)
    simp [getRequestFromPath, addAll_requests_of_not_mem order s k1 hk]
  · intro s1 k r k1 h
    simp [getRequestFromPath, add_requests_of_ne s1 k r k1 h]

/-! ## Delivery -/

/-- C3: on a path that is not a key of the registry (any path, on the registry
`NewSearchStreams` makes) `runStream` returns nil, leaves the sender as it was
(no frame handed to it) and leaves every request as it was (nothing received
from a channel). -/
theorem runStream_unknown_path {T M : Type} (json : JSON T M) (s : Streams) (heap : Heap T M)
    (pick : SelectCase) (path : String) (sender : StreamSender)
    (h : s.requests path = none) :
    ((runStream json s heap pick path sender).outcome = .returned none ∧
     (runStream json s heap pick path sender).sender = sender ∧
     framesHanded sender (runStream json s heap pick path sender).sender = 0 ∧
     (runStream json s heap pick path sender).heap = heap) ∧
    ((runStream json NewSearchStreams heap pick path sender).outcome = .returned none ∧
     (runStream json NewSearchStreams heap pick path sender).sender = sender ∧
     (runStream json NewSearchStreams heap pick path sender).heap = heap) := by
  simp [runStream, h, NewSearchStreams, framesHanded]

theorem SendFrame_frames (sender : StreamSender) (frame : Frame) (incl : FrameInclude) :
    (sender.SendFrame frame incl).1.frames = sender.frames ++ [(frame, incl)] := by
  unfold StreamSender.SendFrame
  split <;> rfl

theorem sendResponse_of_marshal {T M : Type} (json : JSON T M) (r : SearchResponse T M)
    (sender : StreamSender) (jt jm : RawMessage)
    (ht : json.MarshalTraces r.Traces = .ok jt) (hm : json.MarshalMetrics r.Metrics = .ok jm) :
    sendResponse json (some r) sender =
      ((sender.SendFrame (responseFrame jt jm) FrameInclude.IncludeAll).1,
       .returned (sender.SendFrame (responseFrame jt jm) FrameInclude.IncludeAll).2) := by
  simp [sendResponse, ht, hm, createResponseDataFrame, Frame.Append, appendAt, responseFrame]

theorem sendResponse_of_marshalError {T M : Type} (json : JSON T M) (r : SearchResponse T M)
    (sender : StreamSender) (e : GoError) (h : marshalError json r = some e) :
    sendResponse json (some r) sender = (sender, .returned (some e)) := by
  unfold marshalError at h
  cases ht : json.MarshalTraces r.Traces with
  | error err =>
    simp only [ht] at h
    simp [sendResponse, ht, Option.some.inj h]
  | ok jt =>
    cases hm : json.MarshalMetrics r.Metrics with
    | error err =>
      simp only [ht, hm] at h
      simp [sendResponse, ht, hm, createResponseDataFrame, Frame.Append, appendAt,
        Option.some.inj h]
    | ok jm => simp [ht, hm] at h

/-- Every `sendResponse` call leaves the frames handed so far in place and adds
at most one. -/
theorem sendResponse_frames {T M : Type} (json : JSON T M) (sr : Option (SearchResponse T M))
    (sender : StreamSender) :
    (sendResponse json sr sender).1.frames = sender.frames ∨
    ∃ f, (sendResponse json sr sender).1.frames = sender.frames ++ [f] := by
  cases sr with
  | none => exact Or.inl (by simp [sendResponse])
  | some r =>
    cases ht : json.MarshalTraces r.Traces with
    | error err => exact Or.inl (by simp [sendResponse, ht])
    | ok jt =>
      cases hm : json.MarshalMetrics r.Metrics with
      | error err =>
        exact Or.inl (by simp [sendResponse, ht, hm, createResponseDataFrame, Frame.Append,
          appendAt])
      | ok jm =>
        refine Or.inr ⟨(responseFrame jt jm, FrameInclude.IncludeAll), ?_⟩
        rw [sendResponse_of_marshal json r sender jt jm ht hm]
        exact SendFrame_frames _ _ _

theorem framesHanded_sendResponse_le {T M : Type} (json : JSON T M)
    (sr : Option (SearchResponse T M)) (sender : StreamSender) :
    framesHanded sender (sendResponse json sr sender).1 ≤ 1 := by
  unfold framesHanded
  rcases sendResponse_frames json sr sender with h | ⟨f, h⟩ <;> simp [h]

/-- A `sendResponse` call that hands a frame to the sender hands the frame of
the response it was given. -/
theorem sendResponse_frames_exact {T M : Type} (json : JSON T M)
    (sr : Option (SearchResponse T M)) (sender : StreamSender) :
    (sendResponse json sr sender).1.frames = sender.frames ∨
    ∃ r jt jm, sr = some r ∧ json.MarshalTraces r.Traces = .ok jt ∧
      json.MarshalMetrics r.Metrics = .ok jm ∧
      (sendResponse json sr sender).1.frames =
        sender.frames ++ [(responseFrame jt jm, FrameInclude.IncludeAll)] := by
  cases sr with
  | none => exact Or.inl (by simp [sendResponse])
  | some r =>
    cases ht : json.MarshalTraces r.Traces with
    | error err => exact Or.inl (by simp [sendResponse, ht])
    | ok jt =>
      cases hm : json.MarshalMetrics r.Metrics with
      | error err =>
        exact Or.inl (by simp [sendResponse, ht, hm, createResponseDataFrame, Frame.Append,
          appendAt])
      | ok jm =>
        refine Or.inr ⟨r, jt, jm, rfl, ht, hm, ?_⟩
        rw [sendResponse_of_marshal json r sender jt jm ht hm]
        exact SendFrame_frames _ _ _

theorem Chan.receive_some {β : Type} (c c1 : Chan β) (v : Option β)
    (h : c.receive = some (v, c1)) :
    (c.pending = v :: c1.pending ∧ c1.closed = c.closed) ∨
    (c.pending = [] ∧ c.closed = true ∧ v = none ∧ c1 = c) := by
  unfold Chan.receive at h
  split at h
  · rename_i v0 rest hpend
    simp only [Option.some.injEq, Prod.mk.injEq] at h
    obtain ⟨hv, hc⟩ := h
    subst hv
    subst hc
    exact Or.inl ⟨hpend, rfl⟩
  · rename_i hpend
    split at h
    · rename_i hclosed
      simp only [Option.some.injEq, Prod.mk.injEq] at h
      exact Or.inr ⟨hpend, hclosed, h.1.symm, h.2.symm⟩
    · cases h

theorem Chan.receive_none {β : Type} (c : Chan β) (h : c.receive = none) :
    c.pending = [] ∧ c.closed = false := by
  unfold Chan.receive at h
  split at h
  · cases h
  · rename_i hpend
    split at h
    · cases h
    · rename_i hclosed
      exact ⟨hpend, by simpa using hclosed⟩

theorem Chan.receive_pending_length {β : Type} (c c1 : Chan β) (v : Option β)
    (h : c.receive = some (v, c1)) :
    c1.pending.length ≤ c.pending.length ∧ c.pending.length ≤ c1.pending.length + 1 := by
  rcases Chan.receive_some c c1 v h with ⟨h1, _⟩ | ⟨_, _, _, h4⟩
  · simp [h1]
  · subst h4
    simp

theorem selectReceive_response {T M : Type} (pick : SelectCase)
    (updates : Chan (SearchResponse T M)) (errors : Chan GoError)
    (u : Option (SearchResponse T M)) (rest : Chan (SearchResponse T M))
    (h : selectReceive pick updates errors = .response u rest) :
    updates.receive = some (u, rest) := by
  unfold selectReceive at h
  split at h
  · cases h
  · rename_i hu _
    cases h; exact hu
  · cases h
  · rename_i hu _
    split at h
    · cases h; exact hu
    · cases h

theorem selectReceive_err {T M : Type} (pick : SelectCase)
    (updates : Chan (SearchResponse T M)) (errors : Chan GoError)
    (e : Option GoError) (rest : Chan GoError)
    (h : selectReceive pick updates errors = .err e rest) :
    errors.receive = some (e, rest) := by
  unfold selectReceive at h
  split at h
  · cases h
  · cases h
  · rename_i _ he
    cases h; exact he
  · rename_i _ he
    split at h
    · cases h
    · cases h; exact he

theorem selectReceive_nothing {T M : Type} (pick : SelectCase)
    (updates : Chan (SearchResponse T M)) (errors : Chan GoError)
    (h : selectReceive pick updates errors = .nothing) :
    updates.receive = none ∧ errors.receive = none := by
  unfold selectReceive at h
  split at h
  · rename_i hu he
    exact ⟨hu, he⟩
  · cases h
  · cases h
  · split at h <;> cases h

/-- With both channels open and empty no case of the `select` is ready. -/
theorem selectReceive_open_empty {T M : Type} (pick : SelectCase) :
    selectReceive pick (⟨[], false⟩ : Chan (SearchResponse T M)) (⟨[], false⟩ : Chan GoError)
      = .nothing := by
  simp [selectReceive, Chan.receive]

theorem runSelect_nothing {T M : Type} (json : JSON T M) (heap : Heap T M) (p : Ptr)
    (sr : TraceQLSearch T M) (pick : SelectCase) (sender : StreamSender)
    (h : selectReceive pick sr.Updates sr.Errors = .nothing) :
    runSelect json heap p sr pick sender = ⟨heap, sender, .blocked⟩ := by
  simp [runSelect, h]

theorem runSelect_response {T M : Type} (json : JSON T M) (heap : Heap T M) (p : Ptr)
    (sr : TraceQLSearch T M) (pick : SelectCase) (sender : StreamSender)
    (u : Option (SearchResponse T M)) (rest : Chan (SearchResponse T M))
    (h : selectReceive pick sr.Updates sr.Errors = .response u rest) :
    runSelect json heap p sr pick sender =
      ⟨Function.update heap p (some { sr with Updates := rest }),
       (sendResponse json u sender).1, (sendResponse json u sender).2⟩ := by
  simp [runSelect, h]

theorem runSelect_err {T M : Type} (json : JSON T M) (heap : Heap T M) (p : Ptr)
    (sr : TraceQLSearch T M) (pick : SelectCase) (sender : StreamSender)
    (e : Option GoError) (rest : Chan GoError)
    (h : selectReceive pick sr.Updates sr.Errors = .err e rest) :
    runSelect json heap p sr pick sender =
      ⟨Function.update heap p (some { sr with Errors := rest }), sender, .returned e⟩ := by
  simp [runSelect, h]

/-- The `select` forwards at most one event: one frame, or one error taken
from `Errors`. -/
theorem runSelect_events {T M : Type} (json : JSON T M) (heap : Heap T M) (p : Ptr)
    (sr : TraceQLSearch T M) (pick : SelectCase) (sender : StreamSender)
    (hsr : heap p = some sr) :
    sender.frames.length ≤ (runSelect json heap p sr pick sender).sender.frames.length ∧
    (runSelect json heap p sr pick sender).sender.frames.length +
      (pendingErrors heap p - pendingErrors (runSelect json heap p sr pick sender).heap p)
      ≤ sender.frames.length + 1 := by
  cases hsel : selectReceive pick sr.Updates sr.Errors with
  | nothing =>
    rw [runSelect_nothing json heap p sr pick sender hsel]
    simp
  | response u rest =>
    rw [runSelect_response json heap p sr pick sender u rest hsel]
    have hf := sendResponse_frames json u sender
    simp only [pendingErrors, hsr, Function.update_same]
    rcases hf with h | ⟨f, h⟩ <;> simp [h]
  | err e rest =>
    rw [runSelect_err json heap p sr pick sender e rest hsel]
    have he := Chan.receive_pending_length _ _ _
      (selectReceive_err pick sr.Updates sr.Errors e rest hsel)
    simp only [pendingErrors, hsr, Function.update_same]
    omega

theorem runStream_nil {T M : Type} (json : JSON T M) (s : Streams) (heap : Heap T M)
    (pick : SelectCase) (path : String) (sender : StreamSender) (p : Ptr)
    (hp : s.requests path = some p) (hsr : heap p = none) :
    runStream json s heap pick path sender = ⟨heap, sender, .panicked⟩ := by
  simp [runStream, hp, hsr]

theorem runStream_not_done {T M : Type} (json : JSON T M) (s : Streams) (heap : Heap T M)
    (pick : SelectCase) (path : String) (sender : StreamSender) (p : Ptr)
    (sr : TraceQLSearch T M) (hp : s.requests path = some p) (hsr : heap p = some sr)
    (hstate : sr.State ≠ SearchState.Done) :
    runStream json s heap pick path sender = runSelect json heap p sr pick sender := by
  simp [runStream, catchUp, hp, hsr, hstate]

theorem runStream_done_sent {T M : Type} (json : JSON T M) (s : Streams) (heap : Heap T M)
    (pick : SelectCase) (path : String) (sender : StreamSender) (p : Ptr)
    (sr : TraceQLSearch T M) (sender1 : StreamSender)
    (hp : s.requests path = some p) (hsr : heap p = some sr)
    (hstate : sr.State = SearchState.Done)
    (hsend : sendResponse json sr.Result sender = (sender1, .returned none)) :
    runStream json s heap pick path sender = runSelect json heap p sr pick sender1 := by
  simp [runStream, catchUp, hp, hsr, hstate, hsend]

theorem runStream_done_stopped {T M : Type} (json : JSON T M) (s : Streams) (heap : Heap T M)
    (pick : SelectCase) (path : String) (sender : StreamSender) (p : Ptr)
    (sr : TraceQLSearch T M) (sender1 : StreamSender) (o : Outcome)
    (hp : s.requests path = some p) (hsr : heap p = some sr)
    (hstate : sr.State = SearchState.Done)
    (hsend : sendResponse json sr.Result sender = (sender1, o))
    (ho : o ≠ .returned none) :
    runStream json s heap pick path sender = ⟨heap, sender1, o⟩ := by
  simp only [runStream, catchUp, hp, hsr, hstate, hsend, if_true]

/-- C6 (as amended): one `runStream` call forwards at most one event (frames
handed to the sender plus producer errors returned) unless the path resolves to
a request whose `State` is `Done`; then it forwards at most two, the catch-up
frame and one further event. -/
theorem eventsForwarded_le {T M : Type} (json : JSON T M) (s : Streams) (heap : Heap T M)
    (pick : SelectCase) (path : String) (sender : StreamSender) :
    eventsForwarded json s heap pick path sender ≤
      if resolvesToDone s heap path then 2 else 1 := by
  unfold eventsForwarded framesHanded
  cases hp : s.requests path with
  | none => simp [runStream, hp]
  | some p =>
    simp only []
    cases hsr : heap p with
    | none =>
      rw [runStream_nil json s heap pick path sender p hp hsr]
      simp [pendingErrors, hsr]
    | some sr =>
      by_cases hdone : sr.State = SearchState.Done
      · have hres : resolvesToDone s heap path = true := by
          simp [resolvesToDone, hp, hsr, hdone]
        simp only [hres, if_true]
        have hf := sendResponse_frames json sr.Result sender
        cases hsend : sendResponse json sr.Result sender with
        | mk sender1 o =>
          rw [hsend] at hf
          have hlen : sender1.frames.length ≤ sender.frames.length + 1 := by
            rcases hf with h | ⟨f, h⟩ <;> simp at h <;> simp [h]
          by_cases ho : o = .returned none
          · subst ho
            rw [runStream_done_sent json s heap pick path sender p sr sender1 hp hsr hdone hsend]
            have hsel := runSelect_events json heap p sr pick sender1 hsr
            omega
          · rw [runStream_done_stopped json s heap pick path sender p sr sender1 o hp hsr hdone
              hsend ho]
            simp only [Nat.sub_self, Nat.add_zero]
            omega
      · have hres : resolvesToDone s heap path = false := by
          simp [resolvesToDone, hp, hsr, hdone]
        rw [runStream_not_done json s heap pick path sender p sr hp hsr hdone]
        have hsel := runSelect_events json heap p sr pick sender hsr
        simp only [hres, Bool.false_eq_true, if_false]
        omega


/-- C6 (counterexample): a `Done` request with an error waiting on `Errors`;
one `runStream` call hands the catch-up frame to the sender and returns the
producer error, two events. -/
theorem eventsForwarded_done_two :
    (runStream exampleJSON exampleStreams
        (exampleHeap ⟨.Done, some ⟨some "[]", some "null"⟩, ⟨[], false⟩,
          ⟨[some ⟨"search failed"⟩], false⟩⟩)
        .errors "search/a" exampleSender).sender.frames
      = [(responseFrame "[]" "null", FrameInclude.IncludeAll)] ∧
    (runStream exampleJSON exampleStreams
        (exampleHeap ⟨.Done, some ⟨some "[]", some "null"⟩, ⟨[], false⟩,
          ⟨[some ⟨"search failed"⟩], false⟩⟩)
        .errors "search/a" exampleSender).outcome
      = .returned (some ⟨"search failed"⟩) ∧
    ¬ (eventsForwarded exampleJSON exampleStreams
        (exampleHeap ⟨.Done, some ⟨some "[]", some "null"⟩, ⟨[], false⟩,
          ⟨[some ⟨"search failed"⟩], false⟩⟩)
        .errors "search/a" exampleSender ≤ 1) := by
  decide

/-- The frames the `select` adds: at most one, none when no update waits, and
the one it adds is the frame of the update received. -/
theorem runSelect_frames {T M : Type} (json : JSON T M) (heap : Heap T M) (p : Ptr)
    (sr : TraceQLSearch T M) (pick : SelectCase) (sender : StreamSender) :
    ∃ rest, (runSelect json heap p sr pick sender).sender.frames = sender.frames ++ rest ∧
      rest.length ≤ 1 ∧ (sr.Updates.pending = [] → rest = []) ∧
      (∀ f ∈ rest, ∃ U chan1 ju jmu,
        selectReceive pick sr.Updates sr.Errors = .response (some U) chan1 ∧
        json.MarshalTraces U.Traces = .ok ju ∧ json.MarshalMetrics U.Metrics = .ok jmu ∧
        f = (responseFrame ju jmu, FrameInclude.IncludeAll)) ∧
      (∀ U chan1 ju jmu, selectReceive pick sr.Updates sr.Errors = .response (some U) chan1 →
        json.MarshalTraces U.Traces = .ok ju → json.MarshalMetrics U.Metrics = .ok jmu →
        rest = [(responseFrame ju jmu, FrameInclude.IncludeAll)]) := by
  cases hsel : selectReceive pick sr.Updates sr.Errors with
  | nothing =>
    rw [runSelect_nothing json heap p sr pick sender hsel]
    exact ⟨[], by simp, by simp, fun _ => rfl, by simp, by simp⟩
  | err e rest =>
    rw [runSelect_err json heap p sr pick sender e rest hsel]
    exact ⟨[], by simp, by simp, fun _ => rfl, by simp, by simp⟩
  | response u chan =>
    rw [runSelect_response json heap p sr pick sender u chan hsel]
    have hrecv := selectReceive_response pick sr.Updates sr.Errors u chan hsel
    cases u with
    | none =>
      refine ⟨[], by simp [sendResponse], by simp, fun _ => rfl, by simp, ?_⟩
      intro U chan1 ju jmu h
      cases h
    | some r =>
      cases ht : json.MarshalTraces r.Traces with
      | error err =>
        refine ⟨[], by simp [sendResponse, ht], by simp, fun _ => rfl, by simp, ?_⟩
        intro U chan1 ju jmu h htU
        cases h
        rw [ht] at htU
        cases htU
      | ok jt =>
        cases hm : json.MarshalMetrics r.Metrics with
        | error err =>
          refine ⟨[], ?_, by simp, fun _ => rfl, by simp, ?_⟩
          · simp [sendResponse, ht, hm, createResponseDataFrame, Frame.Append, appendAt]
          · intro U chan1 ju jmu h _ hmU
            cases h
            rw [hm] at hmU
            cases hmU
        | ok jm =>
          refine ⟨[(responseFrame jt jm, FrameInclude.IncludeAll)], ?_, by simp, ?_, ?_, ?_⟩
          · rw [sendResponse_of_marshal json r sender jt jm ht hm]
            exact SendFrame_frames _ _ _
          · intro hnil
            rcases Chan.receive_some _ _ _ hrecv with ⟨h1, _⟩ | ⟨_, _, h3, _⟩
            · rw [hnil] at h1
              cases h1
            · cases h3
          · intro f hf
            rw [List.mem_singleton] at hf
            exact ⟨r, chan, jt, jm, rfl, ht, hm, hf⟩
          · intro U chan1 ju jmu h htU hmU
            cases h
            rw [ht] at htU
            rw [hm] at hmU
            cases htU
            cases hmU
            rfl

/-- C4 (counterexample): a `Done` request whose `Result` marshals and on whose
`Updates` channel one update waits: the first `runStream` call hands two
records to the sender; and a `Done` request whose `Result` does not marshal:
the call hands none. -/
theorem runStream_done_not_one_record :
    (runStream exampleJSON exampleStreams
        (exampleHeap ⟨.Done, some ⟨some "[]", some "null"⟩,
          ⟨[some ⟨some "[1]", some "null"⟩], false⟩, ⟨[], false⟩⟩)
        .updates "search/a" exampleSender).sender.frames
      = [(responseFrame "[]" "null", FrameInclude.IncludeAll),
         (responseFrame "[1]" "null", FrameInclude.IncludeAll)] ∧
    framesHanded exampleSender
      (runStream exampleJSON exampleStreams
        (exampleHeap ⟨.Done, some ⟨some "[]", some "null"⟩,
          ⟨[some ⟨some "[1]", some "null"⟩], false⟩, ⟨[], false⟩⟩)
        .updates "search/a" exampleSender).sender = 2 ∧
    framesHanded exampleSender
      (runStream exampleJSON exampleStreams
        (exampleHeap ⟨.Done, some ⟨none, some "null"⟩, ⟨[], false⟩, ⟨[], false⟩⟩)
        .updates "search/a" exampleSender).sender = 0 := by
  decide

/-- C4 (as amended): for a registered request whose `State` is `Done` and whose
`Result` `R` marshals, the first record the `runStream` call on its key hands
to the sender is the record of `R`: columns `traces` and `metrics`, one row
each, the JSON encoding of the trace list and of the metrics of `R`. At most
one more record follows it in the call, none when no update waits on
`Updates`; a record that follows is the record of the update `U` the `select`
received, built from the JSON encodings of `U`, and it does follow whenever the
sender accepted the catch-up record and the update received marshals. -/
theorem runStream_done_catch_up {T M : Type} (json : JSON T M) (s : Streams) (heap : Heap T M)
    (pick : SelectCase) (path : String) (sender : StreamSender) (p : Ptr)
    (sr : TraceQLSearch T M) (R : SearchResponse T M) (jt jm : RawMessage)
    (hp : s.requests path = some p) (hsr : heap p = some sr)
    (hstate : sr.State = SearchState.Done) (hR : sr.Result = some R)
    (ht : json.MarshalTraces R.Traces = .ok jt) (hm : json.MarshalMetrics R.Metrics = .ok jm) :
    ∃ rest, (runStream json s heap pick path sender).sender.frames =
        sender.frames ++
          (⟨"response", [⟨"traces", [jt]⟩, ⟨"metrics", [jm]⟩]⟩, FrameInclude.IncludeAll) :: rest ∧
      rest.length ≤ 1 ∧ (sr.Updates.pending = [] → rest = []) ∧
      (∀ f ∈ rest, ∃ U chan1 ju jmu,
        selectReceive pick sr.Updates sr.Errors = .response (some U) chan1 ∧
        json.MarshalTraces U.Traces = .ok ju ∧ json.MarshalMetrics U.Metrics = .ok jmu ∧
        f = (⟨"response", [⟨"traces", [ju]⟩, ⟨"metrics", [jmu]⟩]⟩, FrameInclude.IncludeAll)) ∧
      (∀ U chan1 ju jmu,
        (sender.SendFrame ⟨"response", [⟨"traces", [jt]⟩, ⟨"metrics", [jm]⟩]⟩
          FrameInclude.IncludeAll).2 = none →
        selectReceive pick sr.Updates sr.Errors = .response (some U) chan1 →
        json.MarshalTraces U.Traces = .ok ju → json.MarshalMetrics U.Metrics = .ok jmu →
        rest = [(⟨"response", [⟨"traces", [ju]⟩, ⟨"metrics", [jmu]⟩]⟩,
          FrameInclude.IncludeAll)]) := by
  have hsend := sendResponse_of_marshal json R sender jt jm ht hm
  rw [← hR] at hsend
  have hframes := SendFrame_frames sender (responseFrame jt jm) FrameInclude.IncludeAll
  cases hacc : (sender.SendFrame (responseFrame jt jm) FrameInclude.IncludeAll).2 with
  | none =>
    rw [hacc] at hsend
    rw [runStream_done_sent json s heap pick path sender p sr _ hp hsr hstate hsend]
    obtain ⟨rest, h1, h2, h3, h4, h5⟩ := runSelect_frames json heap p sr pick
      (sender.SendFrame (responseFrame jt jm) FrameInclude.IncludeAll).1
    refine ⟨rest, ?_, h2, h3, h4, fun U chan1 ju jmu _ => h5 U chan1 ju jmu⟩
    rw [h1, hframes]
    simp [responseFrame]
  | some e =>
    rw [hacc] at hsend
    rw [runStream_done_stopped json s heap pick path sender p sr _ _ hp hsr hstate hsend
      (by simp)]
    refine ⟨[], hframes, by simp, fun _ => rfl, by simp, ?_⟩
    intro U chan1 ju jmu hnone
    have hacc1 : (sender.SendFrame (responseFrame jt jm) FrameInclude.IncludeAll).2 = none :=
      hnone
    rw [hacc] at hacc1
    cases hacc1

theorem runStream_done_catch_up_witness :
    (runStream exampleJSON exampleStreams
        (exampleHeap ⟨.Done, some ⟨some "[]", some "null"⟩,
          ⟨[some ⟨some "[1]", some "null"⟩], false⟩, ⟨[], false⟩⟩)
        .updates "search/a" exampleSender).sender.frames =
      exampleSender.frames ++
        [(⟨"response", [⟨"traces", ["[]"]⟩, ⟨"metrics", ["null"]⟩]⟩, FrameInclude.IncludeAll),
         (⟨"response", [⟨"traces", ["[1]"]⟩, ⟨"metrics", ["null"]⟩]⟩,
           FrameInclude.IncludeAll)] := by
  obtain ⟨rest, h1, _, _, _, h5⟩ := runStream_done_catch_up exampleJSON exampleStreams
    (exampleHeap ⟨.Done, some ⟨some "[]", some "null"⟩,
      ⟨[some ⟨some "[1]", some "null"⟩], false⟩, ⟨[], false⟩⟩)
    .updates "search/a" exampleSender 1
    ⟨.Done, some ⟨some "[]", some "null"⟩, ⟨[some ⟨some "[1]", some "null"⟩], false⟩,
      ⟨[], false⟩⟩
    ⟨some "[]", some "null"⟩ "[]" "null" (by decide) (by decide) rfl rfl rfl rfl
  rw [h1, h5 ⟨some "[1]", some "null"⟩ ⟨[], false⟩ "[1]" "null" (by decide) rfl rfl rfl]

/-- C5 (counterexample): a `Running` request whose producer has pushed the
update `U1` and then the error `E` before the first `runStream` call, with a
`U1` that marshals and a sender that accepts every frame. Both cases of the
`select` are ready; when it takes `Errors` the first call returns `E` and hands
no record to the sender. -/
theorem runStream_error_taken_first :
    (runStream exampleJSON exampleStreams
        (pushError
          (pushUpdate (exampleHeap ⟨.Running, none, ⟨[], false⟩, ⟨[], false⟩⟩) 1
            (some ⟨some "[1]", some "null"⟩))
          1 (some ⟨"search failed"⟩))
        .errors "search/a" exampleSender).outcome
      = .returned (some ⟨"search failed"⟩) ∧
    (runStream exampleJSON exampleStreams
        (pushError
          (pushUpdate (exampleHeap ⟨.Running, none, ⟨[], false⟩, ⟨[], false⟩⟩) 1
            (some ⟨some "[1]", some "null"⟩))
          1 (some ⟨"search failed"⟩))
        .errors "search/a" exampleSender).sender.frames = [] ∧
    ¬ ((runStream exampleJSON exampleStreams
        (pushError
          (pushUpdate (exampleHeap ⟨.Running, none, ⟨[], false⟩, ⟨[], false⟩⟩) 1
            (some ⟨some "[1]", some "null"⟩))
          1 (some ⟨"search failed"⟩))
        .errors "search/a" exampleSender).outcome = .returned none) := by
  decide

/-- Two `runStream` calls on a request that is not `Done`, with `U1` waiting on
`Updates` and `E` pushed on `Errors` after the first call, or before it. -/
theorem runStream_two_calls {T M : Type} (json : JSON T M) (s : Streams)
    (heap : Heap T M) (pick1 pick2 : SelectCase) (path : String) (sender : StreamSender)
    (p : Ptr) (sr : TraceQLSearch T M) (U1 : SearchResponse T M) (E : GoError)
    (jt jm : RawMessage)
    (hp : s.requests path = some p) (hsr : heap p = some sr)
    (hstate : sr.State ≠ SearchState.Done)
    (hu : sr.Updates = ⟨[some U1], false⟩) (he : sr.Errors = ⟨[], false⟩)
    (ht : json.MarshalTraces U1.Traces = .ok jt) (hm : json.MarshalMetrics U1.Metrics = .ok jm)
    (hacc : (sender.SendFrame (responseFrame jt jm) FrameInclude.IncludeAll).2 = none) :
    (∀ r1, r1 = runStream json s heap pick1 path sender →
      r1.outcome = .returned none ∧
      r1.sender.frames = sender.frames ++
        [(⟨"response", [⟨"traces", [jt]⟩, ⟨"metrics", [jm]⟩]⟩, FrameInclude.IncludeAll)] ∧
      ∀ r2, r2 = runStream json s (pushError r1.heap p (some E)) pick2 path r1.sender →
        r2.outcome = .returned (some E) ∧ r2.sender = r1.sender) ∧
    (∀ r1, r1 = runStream json s (pushError heap p (some E)) .updates path sender →
      r1.outcome = .returned none ∧
      r1.sender.frames = sender.frames ++
        [(⟨"response", [⟨"traces", [jt]⟩, ⟨"metrics", [jm]⟩]⟩, FrameInclude.IncludeAll)] ∧
      ∀ r2, r2 = runStream json s r1.heap pick2 path r1.sender →
        r2.outcome = .returned (some E) ∧ r2.sender = r1.sender) ∧
    (∀ r1, r1 = runStream json s (pushError heap p (some E)) .errors path sender →
      r1.outcome = .returned (some E) ∧ r1.sender = sender) := by
  have hsend := sendResponse_of_marshal json U1 sender jt jm ht hm
  have hframes := SendFrame_frames sender (responseFrame jt jm) FrameInclude.IncludeAll
  rw [hacc] at hsend
  have hsr1 : pushError heap p (some E) p = some { sr with Errors := ⟨[some E], false⟩ } := by
    simp [pushError, hsr, he, Chan.send]
  refine ⟨?_, ?_, ?_⟩
  · intro r1 hr1
    have h1 : r1 = ⟨Function.update heap p (some { sr with Updates := ⟨[], false⟩ }),
        (sender.SendFrame (responseFrame jt jm) FrameInclude.IncludeAll).1,
        .returned none⟩ := by
      rw [hr1, runStream_not_done json s heap pick1 path sender p sr hp hsr hstate,
        runSelect_response json heap p sr pick1 sender (some U1) ⟨[], false⟩
          (by simp [hu, he, selectReceive, Chan.receive]), hsend]
    subst h1
    refine ⟨rfl, hframes, ?_⟩
    intro r2 hr2
    rw [hr2]
    simp [runStream, catchUp, hp, pushError, hstate, runSelect, selectReceive, Chan.receive,
      Chan.send, he]
  · intro r1 hr1
    have h1 : r1 = ⟨Function.update (pushError heap p (some E)) p
          (some { sr with Errors := ⟨[some E], false⟩, Updates := ⟨[], false⟩ }),
        (sender.SendFrame (responseFrame jt jm) FrameInclude.IncludeAll).1,
        .returned none⟩ := by
      rw [hr1, runStream_not_done json s _ .updates path sender p _ hp hsr1 hstate,
        runSelect_response json _ p _ .updates sender (some U1) ⟨[], false⟩
          (by simp [hu, selectReceive, Chan.receive]), hsend]
    subst h1
    refine ⟨rfl, hframes, ?_⟩
    intro r2 hr2
    rw [hr2]
    simp [runStream, catchUp, hp, hstate, runSelect, selectReceive, Chan.receive]
  · intro r1 hr1
    rw [hr1, runStream_not_done json s _ .errors path sender p _ hp hsr1 hstate,
      runSelect_err json _ p _ .errors sender (some E) ⟨[], false⟩
        (by simp [hu, selectReceive, Chan.receive])]
    exact ⟨rfl, rfl⟩

/-- C5 (as amended): a registered request that is not `Done` whose producer
pushes the update `U1` and then the error `E`, where `U1` marshals and the
sender accepts its frame. When `E` is pushed after the first `runStream` call,
or is waiting at the first call and its `select` takes the update, the first
call hands exactly one record, that of `U1`, and returns nil, and the second
call returns the error `E` and hands no record. When `E` is waiting at the
first call and its `select` takes the error, the first call returns `E` and
hands no record. -/
theorem runStream_update_then_error {T M : Type} (json : JSON T M) (s : Streams)
    (heap : Heap T M) (pick1 pick2 : SelectCase) (path : String) (sender : StreamSender)
    (p : Ptr) (sr : TraceQLSearch T M) (U1 : SearchResponse T M) (E : GoError)
    (jt jm : RawMessage)
    (hp : s.requests path = some p) (hsr : heap p = some sr)
    (hstate : sr.State ≠ SearchState.Done)
    (hu : sr.Updates = ⟨[some U1], false⟩) (he : sr.Errors = ⟨[], false⟩)
    (ht : json.MarshalTraces U1.Traces = .ok jt) (hm : json.MarshalMetrics U1.Metrics = .ok jm)
    (hacc : (sender.SendFrame (responseFrame jt jm) FrameInclude.IncludeAll).2 = none) :
    ((runStream json s heap pick1 path sender).outcome = .returned none ∧
     (runStream json s heap pick1 path sender).sender.frames = sender.frames ++
        [(⟨"response", [⟨"traces", [jt]⟩, ⟨"metrics", [jm]⟩]⟩, FrameInclude.IncludeAll)] ∧
     (runStream json s (pushError (runStream json s heap pick1 path sender).heap p (some E))
        pick2 path (runStream json s heap pick1 path sender).sender).outcome
       = .returned (some E) ∧
     (runStream json s (pushError (runStream json s heap pick1 path sender).heap p (some E))
        pick2 path (runStream json s heap pick1 path sender).sender).sender
       = (runStream json s heap pick1 path sender).sender) ∧
    ((runStream json s (pushError heap p (some E)) .updates path sender).outcome
       = .returned none ∧
     (runStream json s (pushError heap p (some E)) .updates path sender).sender.frames =
       sender.frames ++
        [(⟨"response", [⟨"traces", [jt]⟩, ⟨"metrics", [jm]⟩]⟩, FrameInclude.IncludeAll)] ∧
     (runStream json s (runStream json s (pushError heap p (some E)) .updates path sender).heap
        pick2 path
        (runStream json s (pushError heap p (some E)) .updates path sender).sender).outcome
       = .returned (some E) ∧
     (runStream json s (runStream json s (pushError heap p (some E)) .updates path sender).heap
        pick2 path
        (runStream json s (pushError heap p (some E)) .updates path sender).sender).sender
       = (runStream json s (pushError heap p (some E)) .updates path sender).sender) ∧
    ((runStream json s (pushError heap p (some E)) .errors path sender).outcome
       = .returned (some E) ∧
     (runStream json s (pushError heap p (some E)) .errors path sender).sender = sender) := by
  have h := runStream_two_calls json s heap pick1 pick2 path sender p sr U1 E jt jm hp hsr
    hstate hu he ht hm hacc
  obtain ⟨a1, a2, a3⟩ := h.1 _ rfl
  obtain ⟨b1, b2, b3⟩ := h.2.1 _ rfl
  exact ⟨⟨a1, a2, (a3 _ rfl).1, (a3 _ rfl).2⟩, ⟨b1, b2, (b3 _ rfl).1, (b3 _ rfl).2⟩,
    h.2.2 _ rfl⟩

theorem runStream_update_then_error_witness :
    (runStream exampleJSON exampleStreams
        (exampleHeap ⟨.Running, none, ⟨[some ⟨some "[1]", some "null"⟩], false⟩, ⟨[], false⟩⟩)
        .errors "search/a" exampleSender).outcome = .returned none ∧
    (runStream exampleJSON exampleStreams
        (exampleHeap ⟨.Running, none, ⟨[some ⟨some "[1]", some "null"⟩], false⟩, ⟨[], false⟩⟩)
        .errors "search/a" exampleSender).sender.frames = exampleSender.frames ++
        [(⟨"response", [⟨"traces", ["[1]"]⟩, ⟨"metrics", ["null"]⟩]⟩,
          FrameInclude.IncludeAll)] ∧
    (runStream exampleJSON exampleStreams
        (pushError (runStream exampleJSON exampleStreams
          (exampleHeap ⟨.Running, none, ⟨[some ⟨some "[1]", some "null"⟩], false⟩,
            ⟨[], false⟩⟩)
          .errors "search/a" exampleSender).heap 1 (some ⟨"search failed"⟩))
        .updates "search/a"
        (runStream exampleJSON exampleStreams
          (exampleHeap ⟨.Running, none, ⟨[some ⟨some "[1]", some "null"⟩], false⟩,
            ⟨[], false⟩⟩)
          .errors "search/a" exampleSender).sender).outcome
      = .returned (some ⟨"search failed"⟩) :=
  have h := (runStream_update_then_error exampleJSON exampleStreams
    (exampleHeap ⟨.Running, none, ⟨[some ⟨some "[1]", some "null"⟩], false⟩, ⟨[], false⟩⟩)
    .errors .updates "search/a" exampleSender 1
    ⟨.Running, none, ⟨[some ⟨some "[1]", some "null"⟩], false⟩, ⟨[], false⟩⟩
    ⟨some "[1]", some "null"⟩
    ⟨"search failed"⟩ "[1]" "null"
    (by decide) (by decide) (by decide) rfl rfl rfl rfl (by decide)).1
  ⟨h.1, h.2.1, h.2.2.1⟩

/-- C7 (counterexample): a `Done` request whose `Result` marshals and on whose
`Updates` channel an update waits that does not marshal: the `runStream` call
returns the marshaling error after it has handed the catch-up record to the
sender. -/
theorem marshal_failure_after_catch_up :
    marshalError exampleJSON ⟨none, some "null"⟩ = some ⟨"json: unsupported value"⟩ ∧
    (runStream exampleJSON exampleStreams
        (exampleHeap ⟨.Done, some ⟨some "[]", some "null"⟩, ⟨[some ⟨none, some "null"⟩], false⟩, ⟨[], false⟩⟩)
        .updates "search/a" exampleSender).outcome
      = .returned (some ⟨"json: unsupported value"⟩) ∧
    (runStream exampleJSON exampleStreams
        (exampleHeap ⟨.Done, some ⟨some "[]", some "null"⟩, ⟨[some ⟨none, some "null"⟩], false⟩, ⟨[], false⟩⟩)
        .updates "search/a" exampleSender).sender.frames
      = [(responseFrame "[]" "null", FrameInclude.IncludeAll)] ∧
    framesHanded exampleSender
      (runStream exampleJSON exampleStreams
        (exampleHeap ⟨.Done, some ⟨some "[]", some "null"⟩, ⟨[some ⟨none, some "null"⟩], false⟩, ⟨[], false⟩⟩)
        .updates "search/a" exampleSender).sender ≠ 0 := by
  decide

/-- C7 (as amended): for a response `r` whose trace list or metrics fails to
marshal with error `e`, `sendResponse` returns `e` and leaves the sender as it
was (no `SendFrame` call). A `runStream` call that has to deliver `r`, as the
`Result` of a `Done` request or as the update its `select` receives, returns `e`
and hands the sender nothing for `r`: the sender is as the catch-up statement
left it, which is as it was before the call when the request is not `Done` or
when `r` is the `Result`. -/
theorem runStream_marshal_failure {T M : Type} (json : JSON T M) (s : Streams) (heap : Heap T M)
    (pick : SelectCase) (path : String) (sender : StreamSender) (p : Ptr)
    (sr : TraceQLSearch T M) (r : SearchResponse T M) (e : GoError)
    (rest : Chan (SearchResponse T M))
    (hp : s.requests path = some p) (hsr : heap p = some sr)
    (hfail : marshalError json r = some e)
    (hdel : (sr.State = SearchState.Done ∧ sr.Result = some r) ∨
      ((catchUp json sr sender).2 = .returned none ∧
        selectReceive pick sr.Updates sr.Errors = .response (some r) rest)) :
    (∀ sender0, sendResponse json (some r) sender0 = (sender0, .returned (some e))) ∧
    (runStream json s heap pick path sender).outcome = .returned (some e) ∧
    (runStream json s heap pick path sender).sender = (catchUp json sr sender).1 ∧
    (sr.State ≠ SearchState.Done ∨ sr.Result = some r →
      (runStream json s heap pick path sender).sender = sender) := by
  have hsend := fun sender0 => sendResponse_of_marshalError json r sender0 e hfail
  refine ⟨hsend, ?_⟩
  rcases hdel with ⟨hdone, hR⟩ | ⟨hcatch, hsel⟩
  · have hc : catchUp json sr sender = (sender, .returned (some e)) := by
      simp [catchUp, hdone, hR, hsend]
    have hrun : runStream json s heap pick path sender = ⟨heap, sender, .returned (some e)⟩ := by
      simp [runStream, hp, hsr, hc]
    rw [hrun, hc]
    exact ⟨rfl, rfl, fun _ => rfl⟩
  · have hc : catchUp json sr sender = ((catchUp json sr sender).1, .returned none) := by
      rw [← hcatch]
    have hrun : runStream json s heap pick path sender =
        runSelect json heap p sr pick (catchUp json sr sender).1 := by
      simp only [runStream, hp, hsr]
      rw [hc]
    rw [hrun, runSelect_response json heap p sr pick _ (some r) rest hsel, hsend]
    refine ⟨rfl, rfl, ?_⟩
    rintro (hnd | hR)
    · simp [catchUp, hnd]
    · by_cases hdone : sr.State = SearchState.Done
      · simp [catchUp, hdone, hR, hsend]
      · simp [catchUp, hdone]

theorem runStream_marshal_failure_witness :
    (∀ sender0, sendResponse exampleJSON (some ⟨none, some "null"⟩) sender0
      = (sender0, .returned (some ⟨"json: unsupported value"⟩))) ∧
    (runStream exampleJSON exampleStreams
        (exampleHeap ⟨.Running, none, ⟨[some ⟨none, some "null"⟩], false⟩, ⟨[], false⟩⟩)
        .updates "search/a" exampleSender).outcome
      = .returned (some ⟨"json: unsupported value"⟩) ∧
    (runStream exampleJSON exampleStreams
        (exampleHeap ⟨.Running, none, ⟨[some ⟨none, some "null"⟩], false⟩, ⟨[], false⟩⟩)
        .updates "search/a" exampleSender).sender = exampleSender :=
  have h := runStream_marshal_failure exampleJSON exampleStreams
    (exampleHeap ⟨.Running, none, ⟨[some ⟨none, some "null"⟩], false⟩, ⟨[], false⟩⟩)
    .updates "search/a" exampleSender 1
    ⟨.Running, none, ⟨[some ⟨none, some "null"⟩], false⟩, ⟨[], false⟩⟩ ⟨none, some "null"⟩
    ⟨"json: unsupported value"⟩ ⟨[], false⟩
    (by decide) (by decide) (by decide) (Or.inr ⟨by decide, rfl⟩)
  ⟨h.1, h.2.1, h.2.2.2 (Or.inl (by decide))⟩

/-- C8: for a response whose trace list and metrics marshal, `sendResponse`
makes exactly one `SendFrame` call, with the directive `IncludeAll` and the
frame of two columns, `traces` then `metrics`, each of one row, the JSON of the
trace list and the JSON of the metrics; it returns what `SendFrame` returns.
The frame `createResponseDataFrame` builds has the two columns, both empty. -/
theorem sendResponse_hands_one_frame {T M : Type} (json : JSON T M) (r : SearchResponse T M)
    (sender : StreamSender) (jt jm : RawMessage)
    (ht : json.MarshalTraces r.Traces = .ok jt) (hm : json.MarshalMetrics r.Metrics = .ok jm) :
    (sendResponse json (some r) sender).1.frames = sender.frames ++
      [(⟨"response", [⟨"traces", [jt]⟩, ⟨"metrics", [jm]⟩]⟩, FrameInclude.IncludeAll)] ∧
    framesHanded sender (sendResponse json (some r) sender).1 = 1 ∧
    (sendResponse json (some r) sender).2 = .returned
      (sender.SendFrame ⟨"response", [⟨"traces", [jt]⟩, ⟨"metrics", [jm]⟩]⟩
        FrameInclude.IncludeAll).2 ∧
    createResponseDataFrame = ⟨"response", [⟨"traces", []⟩, ⟨"metrics", []⟩]⟩ := by
  rw [sendResponse_of_marshal json r sender jt jm ht hm]
  refine ⟨SendFrame_frames _ _ _, ?_, rfl, rfl⟩
  simp [framesHanded, SendFrame_frames]

theorem sendResponse_hands_one_frame_witness :
    (sendResponse exampleJSON (some ⟨some "[1]", some "null"⟩) exampleSender).1.frames =
      exampleSender.frames ++
      [(⟨"response", [⟨"traces", ["[1]"]⟩, ⟨"metrics", ["null"]⟩]⟩, FrameInclude.IncludeAll)] ∧
    framesHanded exampleSender
      (sendResponse exampleJSON (some ⟨some "[1]", some "null"⟩) exampleSender).1 = 1 ∧
    (sendResponse exampleJSON (some ⟨some "[1]", some "null"⟩) exampleSender).2 = .returned
      (exampleSender.SendFrame ⟨"response", [⟨"traces", ["[1]"]⟩, ⟨"metrics", ["null"]⟩]⟩
        FrameInclude.IncludeAll).2 ∧
    createResponseDataFrame = ⟨"response", [⟨"traces", []⟩, ⟨"metrics", []⟩]⟩ :=
  sendResponse_hands_one_frame exampleJSON ⟨some "[1]", some "null"⟩ exampleSender "[1]" "null" rfl rfl

/-- A `select` that returns has taken a value from `Updates` or `Errors`, or
has received nil from a closed `Errors`. -/
theorem runSelect_returned {T M : Type} (json : JSON T M) (heap : Heap T M) (p : Ptr)
    (sr : TraceQLSearch T M) (pick : SelectCase) (sender : StreamSender) (err : Option GoError)
    (hsr : heap p = some sr)
    (hret : (runSelect json heap p sr pick sender).outcome = .returned err) :
    pendingValues (runSelect json heap p sr pick sender).heap p + 1 = pendingValues heap p ∨
    (sr.Errors.pending = [] ∧ sr.Errors.closed = true ∧ err = none) := by
  cases hsel : selectReceive pick sr.Updates sr.Errors with
  | nothing =>
    rw [runSelect_nothing json heap p sr pick sender hsel] at hret
    cases hret
  | response u rest =>
    rw [runSelect_response json heap p sr pick sender u rest hsel] at hret ⊢
    rcases Chan.receive_some _ _ _ (selectReceive_response pick sr.Updates sr.Errors u rest hsel)
      with ⟨h1, _⟩ | ⟨_, _, h3, _⟩
    · left
      simp [pendingValues, pendingUpdates, pendingErrors, hsr, h1]
      omega
    · subst h3
      simp [sendResponse] at hret
  | err e rest =>
    rw [runSelect_err json heap p sr pick sender e rest hsel] at hret ⊢
    rcases Chan.receive_some _ _ _ (selectReceive_err pick sr.Updates sr.Errors e rest hsel)
      with ⟨h1, _⟩ | ⟨h1, h2, h3, _⟩
    · left
      simp [pendingValues, pendingUpdates, pendingErrors, hsr, h1]
      omega
    · right
      subst h3
      simp only [Outcome.returned.injEq] at hret
      exact ⟨h1, h2, hret.symm⟩

/-- A `runStream` call returns only on an unknown key, after a failed catch-up
send, after taking one value from `Updates` or `Errors`, or after receiving nil
from a closed `Errors`. -/
theorem runStream_returned {T M : Type} (json : JSON T M) (s : Streams) (heap : Heap T M)
    (pick : SelectCase) (path : String) (sender : StreamSender) (err : Option GoError)
    (hret : (runStream json s heap pick path sender).outcome = .returned err) :
    s.requests path = none ∨
    ∃ p sr, s.requests path = some p ∧ heap p = some sr ∧
      ((sr.State = SearchState.Done ∧
          (sendResponse json sr.Result sender).2 = .returned err ∧ err ≠ none) ∨
        pendingValues (runStream json s heap pick path sender).heap p + 1
          = pendingValues heap p ∨
        (sr.Errors.pending = [] ∧ sr.Errors.closed = true ∧ err = none)) := by
  cases hp : s.requests path with
  | none => exact Or.inl rfl
  | some p =>
    right
    cases hsr : heap p with
    | none =>
      rw [runStream_nil json s heap pick path sender p hp hsr] at hret
      cases hret
    | some sr =>
      refine ⟨p, sr, rfl, hsr, ?_⟩
      by_cases hdone : sr.State = SearchState.Done
      · cases hsend : sendResponse json sr.Result sender with
        | mk sender1 o =>
          by_cases ho : o = .returned none
          · subst ho
            rw [runStream_done_sent json s heap pick path sender p sr sender1 hp hsr hdone
              hsend] at hret ⊢
            exact Or.inr (runSelect_returned json heap p sr pick sender1 err hsr hret)
          · rw [runStream_done_stopped json s heap pick path sender p sr sender1 o hp hsr hdone
              hsend ho] at hret
            simp only [] at hret
            subst hret
            exact Or.inl ⟨hdone, rfl, fun h => ho (by rw [h])⟩
      · rw [runStream_not_done json s heap pick path sender p sr hp hsr hdone] at hret ⊢
        exact Or.inr (runSelect_returned json heap p sr pick sender err hsr hret)

/-- C10 (counterexample): a `Done` request on whose channels no value waits and
none is ever sent, with `Errors` closed: the receive on the closed channel
proceeds with nil, so `runStream` hands the catch-up record to the sender and
returns nil; it does not block. -/
theorem runStream_done_closed_errors_returns :
    (runStream exampleJSON exampleStreams
        (exampleHeap ⟨.Done, some ⟨some "[2]", some "null"⟩, ⟨[], false⟩, ⟨[], true⟩⟩)
        .updates "search/a" exampleSender).outcome = .returned none ∧
    (runStream exampleJSON exampleStreams
        (exampleHeap ⟨.Done, some ⟨some "[2]", some "null"⟩, ⟨[], false⟩, ⟨[], true⟩⟩)
        .updates "search/a" exampleSender).sender.frames
      = [(responseFrame "[2]" "null", FrameInclude.IncludeAll)] ∧
    pendingValues
      (exampleHeap ⟨.Done, some ⟨some "[2]", some "null"⟩, ⟨[], false⟩, ⟨[], true⟩⟩) 1 = 0 ∧
    ¬ ((runStream exampleJSON exampleStreams
        (exampleHeap ⟨.Done, some ⟨some "[2]", some "null"⟩, ⟨[], false⟩, ⟨[], true⟩⟩)
        .updates "search/a" exampleSender).outcome = .blocked) := by
  decide

/-- C10 (as amended): for a registered request whose `State` is `Done` and
whose `Updates` and `Errors` are open and hold no value, `runStream` on its key
makes the catch-up send of `Result` and then blocks in the `select`, unless the
catch-up send fails, which ends the call; when `Result` marshals and the sender
accepts the frame the call blocks with the catch-up record handed to the
sender. Any `runStream` call returns only on an unknown key, after a failed
catch-up send, after it has taken a value from `Updates` or `Errors`, or after
it has received nil from a closed `Errors` that holds no value. -/
theorem runStream_done_blocked {T M : Type} (json : JSON T M) (s : Streams) (heap : Heap T M)
    (pick : SelectCase) (path : String) (sender : StreamSender) (p : Ptr)
    (sr : TraceQLSearch T M)
    (hp : s.requests path = some p) (hsr : heap p = some sr)
    (hstate : sr.State = SearchState.Done)
    (hu : sr.Updates = ⟨[], false⟩) (he : sr.Errors = ⟨[], false⟩) :
    runStream json s heap pick path sender =
      ⟨heap, (sendResponse json sr.Result sender).1,
        if (sendResponse json sr.Result sender).2 = .returned none then .blocked
        else (sendResponse json sr.Result sender).2⟩ ∧
    (∀ (R : SearchResponse T M) (jt jm : RawMessage), sr.Result = some R →
      json.MarshalTraces R.Traces = .ok jt → json.MarshalMetrics R.Metrics = .ok jm →
      (sender.SendFrame (responseFrame jt jm) FrameInclude.IncludeAll).2 = none →
      (runStream json s heap pick path sender).outcome = .blocked ∧
      (runStream json s heap pick path sender).sender.frames = sender.frames ++
        [(⟨"response", [⟨"traces", [jt]⟩, ⟨"metrics", [jm]⟩]⟩, FrameInclude.IncludeAll)] ∧
      (runStream json s heap pick path sender).heap = heap) ∧
    (∀ (s1 : Streams) (heap1 : Heap T M) (pick1 : SelectCase) (path1 : String)
      (sender1 : StreamSender) (err : Option GoError),
      (runStream json s1 heap1 pick1 path1 sender1).outcome = .returned err →
      s1.requests path1 = none ∨
      ∃ p1 sr1, s1.requests path1 = some p1 ∧ heap1 p1 = some sr1 ∧
        ((sr1.State = SearchState.Done ∧
            (sendResponse json sr1.Result sender1).2 = .returned err ∧ err ≠ none) ∨
          pendingValues (runStream json s1 heap1 pick1 path1 sender1).heap p1 + 1
            = pendingValues heap1 p1 ∨
          (sr1.Errors.pending = [] ∧ sr1.Errors.closed = true ∧ err = none))) := by
  have hsel : selectReceive pick sr.Updates sr.Errors = .nothing := by
    rw [hu, he]
    exact selectReceive_open_empty pick
  have hmain : runStream json s heap pick path sender =
      ⟨heap, (sendResponse json sr.Result sender).1,
        if (sendResponse json sr.Result sender).2 = .returned none then .blocked
        else (sendResponse json sr.Result sender).2⟩ := by
    cases hsend : sendResponse json sr.Result sender with
    | mk sender1 o =>
      by_cases ho : o = .returned none
      · subst ho
        rw [runStream_done_sent json s heap pick path sender p sr sender1 hp hsr hstate hsend,
          runSelect_nothing json heap p sr pick sender1 hsel]
        simp
      · rw [runStream_done_stopped json s heap pick path sender p sr sender1 o hp hsr hstate
          hsend ho]
        simp [ho]
  refine ⟨hmain, ?_, ?_⟩
  · intro R jt jm hR ht hm hacc
    have hsend := sendResponse_of_marshal json R sender jt jm ht hm
    rw [hacc, ← hR] at hsend
    rw [hmain, hsend]
    exact ⟨by simp, SendFrame_frames _ _ _, rfl⟩
  · intro s1 heap1 pick1 path1 sender1 err hret
    exact runStream_returned json s1 heap1 pick1 path1 sender1 err hret

theorem runStream_done_blocked_witness :
    (runStream exampleJSON exampleStreams
        (exampleHeap ⟨.Done, some ⟨some "[2]", some "null"⟩, ⟨[], false⟩, ⟨[], false⟩⟩)
        .updates "search/a" exampleSender).outcome = .blocked ∧
    (runStream exampleJSON exampleStreams
        (exampleHeap ⟨.Done, some ⟨some "[2]", some "null"⟩, ⟨[], false⟩, ⟨[], false⟩⟩)
        .updates "search/a" exampleSender).sender.frames = exampleSender.frames ++
        [(⟨"response", [⟨"traces", ["[2]"]⟩, ⟨"metrics", ["null"]⟩]⟩,
          FrameInclude.IncludeAll)] ∧
    (runStream exampleJSON exampleStreams
        (exampleHeap ⟨.Done, some ⟨some "[2]", some "null"⟩, ⟨[], false⟩, ⟨[], false⟩⟩)
        .updates "search/a" exampleSender).heap
      = exampleHeap ⟨.Done, some ⟨some "[2]", some "null"⟩, ⟨[], false⟩, ⟨[], false⟩⟩ :=
  (runStream_done_blocked exampleJSON exampleStreams
    (exampleHeap ⟨.Done, some ⟨some "[2]", some "null"⟩, ⟨[], false⟩, ⟨[], false⟩⟩)
    .updates "search/a" exampleSender 1
    ⟨.Done, some ⟨some "[2]", some "null"⟩, ⟨[], false⟩, ⟨[], false⟩⟩
    (by decide) (by decide) rfl rfl rfl).2.1 ⟨some "[2]", some "null"⟩ "[2]" "null"
    rfl rfl rfl (by decide)

/-! ## Witnesses for the registration and unknown-key theorems -/

theorem addAll_distinct_keys_witness :
    (∀ kr ∈ [("search/b", 2), ("search/a", 1)], ∀ s1 : Streams, (add s1 kr.1 kr.2).2 = none) ∧
    (∀ kr ∈ [("search/a", 1), ("search/b", 2)],
      getRequestFromPath (addAll exampleStreams [("search/b", 2), ("search/a", 1)]) kr.1
        = .ok kr.2) ∧
    (∀ k1, k1 ∉ ([("search/a", 1), ("search/b", 2)] : List (String × Ptr)).map Prod.fst →
      getRequestFromPath (addAll exampleStreams [("search/b", 2), ("search/a", 1)]) k1
        = getRequestFromPath exampleStreams k1) ∧
    (∀ (s1 : Streams) (k : String) (r : Ptr) (k1 : String), k1 ≠ k →
      getRequestFromPath (add s1 k r).1 k1 = getRequestFromPath s1 k1) :=
  addAll_distinct_keys exampleStreams [("search/a", 1), ("search/b", 2)]
    [("search/b", 2), ("search/a", 1)] (List.Perm.swap _ _ _) (by decide) (by decide)

theorem runStream_unknown_path_witness :
    ((runStream exampleJSON exampleStreams
        (exampleHeap ⟨.Running, none, ⟨[some ⟨some "[1]", some "null"⟩], false⟩,
          ⟨[some ⟨"e"⟩], false⟩⟩)
        .updates "search/zzz" exampleSender).outcome = .returned none ∧
     (runStream exampleJSON exampleStreams
        (exampleHeap ⟨.Running, none, ⟨[some ⟨some "[1]", some "null"⟩], false⟩,
          ⟨[some ⟨"e"⟩], false⟩⟩)
        .updates "search/zzz" exampleSender).sender = exampleSender) :=
  have h := (runStream_unknown_path exampleJSON exampleStreams
    (exampleHeap ⟨.Running, none, ⟨[some ⟨some "[1]", some "null"⟩], false⟩,
      ⟨[some ⟨"e"⟩], false⟩⟩)
    .updates "search/zzz" exampleSender (by decide)).1
  ⟨h.1, h.2.1⟩

end Tempo
